import Mathlib

/-!
Verification of the text-autocomplete editor core
(src/text_autocomplete.py, src/ai_completer.py).

Lines of text are modelled as lists of characters; the editor state is a
structure mirroring the fields of the Python class TextEditor.  Machine
time is modelled in exact integer milliseconds (the Python code compares
float seconds; the comparison now - last > pause_delay_ms / 1000 is exact
on these values).  The file-system and network collaborators are passed
in as explicit parameters (the outcome of a read, the completion text
returned by the provider), so every definition is executable.

A ghost field generation counts buffer edits (every operation that sets
the modified flag increments it); it is used to express staleness of
completion results relative to buffer edits.
-/

namespace TextAutocomplete

abbrev Line := List Char

/-- Which status message was last set (set_status); the claims only
depend on which message was chosen, not on its formatted text. -/
inductive StatusKind where
  | noMsg
  | loaded
  | errorLoading
  | saved
  | errorSaving
  | noFilename
  deriving Repr, DecidableEq

/-- State of the Python class TextEditor (src/text_autocomplete.py,
constructor lines 16-61), restricted to the fields the core logic
reads or writes.  generation is a ghost edit counter. -/
structure Editor where
  lines : List Line
  cursor_y : Nat
  cursor_x : Nat
  suggestion : Line
  suggestion_match_pos : Nat
  last_input_time : Int
  ai_enabled : Bool
  requesting_completion : Bool
  modified : Bool
  filename : Option Line
  status : StatusKind
  pause_delay_ms : Int
  generation : Nat
  deriving Repr, DecidableEq

/-- get_current_line (lines 112-118):
returns lines[cursor_y] if cursor_y < len(lines) else "". -/
def get_current_line (e : Editor) : Line :=
  if e.cursor_y < e.lines.length then e.lines.getD e.cursor_y [] else []

/-- check_suggestion_match (lines 170-189). -/
def check_suggestion_match (e : Editor) (char : Char) : Editor :=
  if e.suggestion = [] then e
  else if e.suggestion_match_pos < e.suggestion.length then
    if e.suggestion.getD e.suggestion_match_pos char = char then
      { e with suggestion_match_pos := e.suggestion_match_pos + 1 }
    else
      { e with suggestion := [], suggestion_match_pos := 0 }
  else
    { e with suggestion := [], suggestion_match_pos := 0 }

/-- accept_suggestion (lines 191-211).  Note that in the branch where
the remaining suffix is empty only the suggestion text is cleared;
suggestion_match_pos is left as it was (line 199). -/
def accept_suggestion (e : Editor) : Editor :=
  if e.suggestion = [] then e
  else
    let remaining := e.suggestion.drop e.suggestion_match_pos
    if remaining = [] then { e with suggestion := [] }
    else
      let current_line := get_current_line e
      let new_line := current_line.take e.cursor_x ++ remaining
        ++ current_line.drop e.cursor_x
      { e with
        lines := e.lines.set e.cursor_y new_line
        cursor_x := e.cursor_x + remaining.length
        modified := true
        generation := e.generation + 1
        suggestion := []
        suggestion_match_pos := 0 }

/-- insert_char (lines 213-229); now is the wall clock read at line 229. -/
def insert_char (e : Editor) (char : Char) (now : Int) : Editor :=
  let current_line := get_current_line e
  let new_line := current_line.take e.cursor_x ++ [char]
    ++ current_line.drop e.cursor_x
  let e1 := { e with
    lines := e.lines.set e.cursor_y new_line
    cursor_x := e.cursor_x + 1
    modified := true
    generation := e.generation + 1 }
  let e2 := check_suggestion_match e1 char
  { e2 with last_input_time := now }

/-- delete_char (lines 231-255): backspace.  With the cursor at the very
start of the buffer (cursor_x = 0 and cursor_y = 0) the method falls
through both branches and changes nothing. -/
def delete_char (e : Editor) (now : Int) : Editor :=
  if e.cursor_x > 0 then
    let current_line := get_current_line e
    let new_line := current_line.take (e.cursor_x - 1)
      ++ current_line.drop e.cursor_x
    { e with
      lines := e.lines.set e.cursor_y new_line
      cursor_x := e.cursor_x - 1
      modified := true
      generation := e.generation + 1
      suggestion := []
      suggestion_match_pos := 0
      last_input_time := now }
  else if e.cursor_y > 0 then
    let previous_line := e.lines.getD (e.cursor_y - 1) []
    let current_line := get_current_line e
    let lines1 := e.lines.set (e.cursor_y - 1) (previous_line ++ current_line)
    { e with
      lines := lines1.eraseIdx e.cursor_y
      cursor_y := e.cursor_y - 1
      cursor_x := previous_line.length
      modified := true
      generation := e.generation + 1
      suggestion := []
      suggestion_match_pos := 0
      last_input_time := now }
  else e

/-- insert_newline (lines 257-272). -/
def insert_newline (e : Editor) (now : Int) : Editor :=
  let current_line := get_current_line e
  let before := current_line.take e.cursor_x
  let after := current_line.drop e.cursor_x
  let lines1 := e.lines.set e.cursor_y before
  { e with
    lines := lines1.insertIdx (e.cursor_y + 1) after
    cursor_y := e.cursor_y + 1
    cursor_x := 0
    modified := true
    generation := e.generation + 1
    suggestion := []
    suggestion_match_pos := 0
    last_input_time := now }

/-- The vertical-movement block of move_cursor (lines 286-292):
new_y = max(0, min(len(lines) - 1, cursor_y + dy)); when it differs
from cursor_y, move there and clamp cursor_x to the new line length.
dy may be negative; the Python clamps are over unbounded integers. -/
def move_cursor_vertical (e : Editor) (dy : Int) : Editor :=
  let new_y : Nat :=
    (max 0 (min ((e.lines.length : Int) - 1) ((e.cursor_y : Int) + dy))).toNat
  if new_y ≠ e.cursor_y then
    let e' := { e with cursor_y := new_y }
    { e' with cursor_x := min e'.cursor_x (get_current_line e').length }
  else e

/-- The horizontal-movement block of move_cursor (lines 294-297):
cursor_x = max(0, min(line_len, cursor_x + dx)) when dx is non-zero. -/
def move_cursor_horizontal (e : Editor) (dx : Int) : Editor :=
  if dx ≠ 0 then
    let line_len := (get_current_line e).length
    { e with
      cursor_x := (max 0 (min (line_len : Int) ((e.cursor_x : Int) + dx))).toNat }
  else e

/-- move_cursor (lines 274-297): the suggestion is cleared first unless
the move is a pure rightward one (dy = 0 and dx ≥ 0), then the vertical
block runs, then the horizontal block. -/
def move_cursor (e : Editor) (dy dx : Int) : Editor :=
  let e1 :=
    if dy ≠ 0 ∨ dx < 0 then
      { e with suggestion := [], suggestion_match_pos := 0 }
    else e
  move_cursor_horizontal (move_cursor_vertical e1 dy) dx

/-- Python single-character str.split: pySplit sep s splits s at every
occurrence of sep; the empty string yields one empty field. -/
def pySplit (sep : Char) : Line → List Line
  | [] => [[]]
  | c :: rest =>
    if c = sep then [] :: pySplit sep rest
    else
      match pySplit sep rest with
      | [] => [[c]]
      | l :: ls => (c :: l) :: ls

/-- Python sep.join over a list of strings. -/
def pyJoin (sep : Char) : List Line → Line
  | [] => []
  | [l] => l
  | l :: ls => l ++ sep :: pyJoin sep ls

/-- The buffer contents assigned by load_file (lines 72-75):
content.split over the newline when content is non-empty, a single
empty line otherwise. -/
def load_content (content : Line) : List Line :=
  if content = [] then [[]] else pySplit '\n' content

/-- load_file (lines 63-80).  The outcome of opening and reading the
file is passed in: some content on success, none for an IOError; on
error only the status message is set. -/
def load_file (e : Editor) (fname : Line) (result : Option Line) : Editor :=
  match result with
  | some content =>
    { e with
      lines := load_content content
      filename := some fname
      modified := false
      status := .loaded }
  | none => { e with status := .errorLoading }

/-- The text written by save_file (line 97): the newline-join of the
buffer lines. -/
def serialize (e : Editor) : Line := pyJoin '\n' e.lines

/-- save_file (lines 82-101).  writeOk is the outcome of opening and
writing the file (false for an IOError).  With no filename argument and
none stored, the method sets the No-filename status and returns without
touching the file system. -/
def save_file (e : Editor) (fnameArg : Option Line) (writeOk : Bool) : Editor :=
  let e1 :=
    match fnameArg with
    | some f => { e with filename := some f }
    | none => e
  match e1.filename with
  | none => { e1 with status := .noFilename }
  | some _ =>
    if writeOk then { e1 with modified := false, status := .saved }
    else { e1 with status := .errorSaving }

/-- Python whitespace characters as stripped by str.strip. -/
def pyIsSpace (c : Char) : Bool :=
  c = ' ' || c = '\t' || c = '\n' || c = '\r' || c = '\x0b' || c = '\x0c'

/-- not context.strip(): true when every character is whitespace. -/
def isBlankStr (s : Line) : Bool := s.all pyIsSpace

/-- get_context_before_cursor (lines 120-146): the previous up-to-ten
lines plus the current line truncated at the cursor, newline-joined,
keeping only the trailing max_chars characters. -/
def get_context_before_cursor (e : Editor) (max_chars : Nat) : Line :=
  let start := e.cursor_y - 10
  let prev := (e.lines.drop start).take (e.cursor_y - start)
  let context_lines := prev ++ [(get_current_line e).take e.cursor_x]
  let context := pyJoin '\n' context_lines
  if context.length > max_chars then context.drop (context.length - max_chars)
  else context

/-- request_ai_completion (lines 148-168).  available is the value of
ai_completer.is_available(); completion is the value returned by the
synchronous call ai_completer.get_completion (none for a failure).  The
returned flag records whether get_completion was actually invoked (the
fetch fired).  The requesting_completion flag is set at line 162 and
cleared again at line 164 before the function returns, so its net value
is unchanged. -/
def request_ai_completion (e : Editor) (available : Bool)
    (completion : Option Line) : Editor × Bool :=
  if !e.ai_enabled || !available then (e, false)
  else if e.requesting_completion then (e, false)
  else
    let context := get_context_before_cursor e 500
    if isBlankStr context then (e, false)
    else
      match completion with
      | some s =>
        if s = [] then (e, true)
        else ({ e with suggestion := s, suggestion_match_pos := 0 }, true)
      | none => (e, true)

/-- The idle branch of handle_input (lines 390-398, taken when getch
returns -1): the debounced completion trigger.  now is the wall clock
in milliseconds; the Python comparison is over the same quantities in
seconds. -/
def idle_check (e : Editor) (now : Int) (available : Bool)
    (completion : Option Line) : Editor × Bool :=
  if e.ai_enabled && e.suggestion.isEmpty && !e.requesting_completion then
    if now - e.last_input_time > e.pause_delay_ms then
      if e.last_input_time > 0 then request_ai_completion e available completion
      else (e, false)
    else (e, false)
  else (e, false)

/-- The buffer / cursor well-formedness from the spec: lines not empty,
0 ≤ row < len(lines) and 0 ≤ col ≤ len(lines[row]). -/
abbrev Invariant (e : Editor) : Prop :=
  e.lines ≠ [] ∧ e.cursor_y < e.lines.length ∧
    e.cursor_x ≤ (e.lines.getD e.cursor_y []).length

/-- One editing operation of claim C1. -/
inductive Op where
  | ins (c : Char) (t : Int)
  | del (t : Int)
  | newline (t : Int)
  | move (dy dx : Int)
  deriving Repr

/-- Dispatch one operation. -/
def applyOp (e : Editor) : Op → Editor
  | .ins c t => insert_char e c t
  | .del t => delete_char e t
  | .newline t => insert_newline e t
  | .move dy dx => move_cursor e dy dx

/-- A fully specified sample editor state used by concrete witnesses. -/
def mkEditor (lines : List Line) (y x : Nat) (sug : Line) (pos : Nat)
    (t : Int) : Editor :=
  { lines := lines, cursor_y := y, cursor_x := x, suggestion := sug,
    suggestion_match_pos := pos, last_input_time := t, ai_enabled := true,
    requesting_completion := false, modified := false, filename := none,
    status := .noMsg, pause_delay_ms := 200, generation := 0 }

/-! ### List helper lemmas -/

theorem length_pos_of_ne_nil' {α : Type} (l : List α) (h : l ≠ []) :
    0 < l.length := by
  cases l with
  | nil => exact absurd rfl h
  | cons a t => simp

theorem ne_nil_of_length_pos' {α : Type} (l : List α) (h : 0 < l.length) :
    l ≠ [] := by
  cases l with
  | nil => simp at h
  | cons a t => simp

theorem set_ne_nil' {α : Type} (l : List α) (i : Nat) (v : α) (h : l ≠ []) :
    l.set i v ≠ [] := by
  cases l with
  | nil => exact absurd rfl h
  | cons a t => cases i <;> simp

/-- Length of the line produced by splicing s into l at position x. -/
theorem length_splice (l : Line) (x : Nat) (s : Line) (h : x ≤ l.length) :
    (l.take x ++ s ++ l.drop x).length = l.length + s.length := by
  simp only [List.length_append, List.length_take, List.length_drop]
  omega

/-- Length of the line produced by removing the character before x. -/
theorem length_backspace (l : Line) (x : Nat) (hx : 0 < x) (h : x ≤ l.length) :
    (l.take (x - 1) ++ l.drop x).length = l.length - 1 := by
  simp only [List.length_append, List.length_take, List.length_drop]
  omega

theorem getD_set_self {α : Type} : ∀ (l : List α) (i : Nat) (v d : α),
    i < l.length → (l.set i v).getD i d = v
  | [], _, _, _, h => absurd h (by simp)
  | _ :: _, 0, _, _, _ => rfl
  | _ :: l, i + 1, v, d, h => getD_set_self l i v d (Nat.lt_of_succ_lt_succ h)

theorem getD_set_ne {α : Type} : ∀ (l : List α) (i j : Nat) (v d : α),
    i ≠ j → (l.set i v).getD j d = l.getD j d
  | [], _, _, _, _, _ => rfl
  | _ :: _, 0, 0, _, _, h => absurd rfl h
  | _ :: _, 0, _ + 1, _, _, _ => rfl
  | _ :: _, _ + 1, 0, _, _, _ => rfl
  | _ :: l, i + 1, j + 1, v, d, h =>
    getD_set_ne l i j v d (fun hh => h (by rw [hh]))

theorem getD_eraseIdx_lt {α : Type} : ∀ (l : List α) (i j : Nat) (d : α),
    j < i → (l.eraseIdx i).getD j d = l.getD j d
  | [], _, _, _, _ => rfl
  | _ :: _, 0, j, _, h => absurd h (Nat.not_lt_zero j)
  | _ :: _, _ + 1, 0, _, _ => rfl
  | _ :: l, i + 1, j + 1, d, h => getD_eraseIdx_lt l i j d (Nat.lt_of_succ_lt_succ h)

theorem length_eraseIdx_of_lt {α : Type} : ∀ (l : List α) (i : Nat),
    i < l.length → (l.eraseIdx i).length = l.length - 1
  | [], _, h => absurd h (by simp)
  | _ :: _, 0, _ => rfl
  | _ :: l, i + 1, h => by
    have ih := length_eraseIdx_of_lt l i (Nat.lt_of_succ_lt_succ h)
    have hi : i < l.length := Nat.lt_of_succ_lt_succ h
    show (l.eraseIdx i).length + 1 = l.length + 1 - 1
    omega

/-! ### Frame lemmas: check_suggestion_match only touches the
suggestion fields -/

theorem check_suggestion_match_lines (e : Editor) (c : Char) :
    (check_suggestion_match e c).lines = e.lines := by
  unfold check_suggestion_match; (repeat' split) <;> rfl

theorem check_suggestion_match_cursor_y (e : Editor) (c : Char) :
    (check_suggestion_match e c).cursor_y = e.cursor_y := by
  unfold check_suggestion_match; (repeat' split) <;> rfl

theorem check_suggestion_match_cursor_x (e : Editor) (c : Char) :
    (check_suggestion_match e c).cursor_x = e.cursor_x := by
  unfold check_suggestion_match; (repeat' split) <;> rfl

theorem check_suggestion_match_pause (e : Editor) (c : Char) :
    (check_suggestion_match e c).pause_delay_ms = e.pause_delay_ms := by
  unfold check_suggestion_match; (repeat' split) <;> rfl

/-! ### Field characterisations of the editing operations -/

theorem insert_char_fields (e : Editor) (c : Char) (t : Int) :
    (insert_char e c t).lines = e.lines.set e.cursor_y
      ((get_current_line e).take e.cursor_x ++ [c]
        ++ (get_current_line e).drop e.cursor_x) ∧
    (insert_char e c t).cursor_y = e.cursor_y ∧
    (insert_char e c t).cursor_x = e.cursor_x + 1 ∧
    (insert_char e c t).last_input_time = t ∧
    (insert_char e c t).pause_delay_ms = e.pause_delay_ms := by
  unfold insert_char
  refine ⟨?_, ?_, ?_, ?_, ?_⟩ <;>
    simp [check_suggestion_match_lines, check_suggestion_match_cursor_y,
      check_suggestion_match_cursor_x, check_suggestion_match_pause]

/-! ### Claim C1: invariant preservation -/

theorem get_current_line_eq_getD (e : Editor)
    (h : e.cursor_y < e.lines.length) :
    get_current_line e = e.lines.getD e.cursor_y [] := if_pos h

theorem invariant_insert_char (e : Editor) (c : Char) (t : Int)
    (h : Invariant e) : Invariant (insert_char e c t) := by
  obtain ⟨h1, h2, h3⟩ := h
  obtain ⟨hf1, hf2, hf3, _, _⟩ := insert_char_fields e c t
  have hcur : get_current_line e = e.lines.getD e.cursor_y [] :=
    get_current_line_eq_getD e h2
  refine ⟨?_, ?_, ?_⟩
  · rw [hf1]; exact set_ne_nil' _ _ _ h1
  · rw [hf2, hf1, List.length_set]; exact h2
  · rw [hf3, hf2, hf1, getD_set_self _ _ _ _ h2, hcur,
      length_splice _ _ _ h3]
    simp only [List.length_singleton]
    omega

theorem invariant_delete_char (e : Editor) (t : Int)
    (h : Invariant e) : Invariant (delete_char e t) := by
  obtain ⟨h1, h2, h3⟩ := h
  have hcur : get_current_line e = e.lines.getD e.cursor_y [] :=
    get_current_line_eq_getD e h2
  unfold delete_char
  split
  · next hx =>
    refine ⟨?_, ?_, ?_⟩
    · show e.lines.set e.cursor_y
        ((get_current_line e).take (e.cursor_x - 1)
          ++ (get_current_line e).drop e.cursor_x) ≠ []
      exact set_ne_nil' _ _ _ h1
    · show e.cursor_y < (e.lines.set e.cursor_y
        ((get_current_line e).take (e.cursor_x - 1)
          ++ (get_current_line e).drop e.cursor_x)).length
      rw [List.length_set]; exact h2
    · show e.cursor_x - 1 ≤ ((e.lines.set e.cursor_y
        ((get_current_line e).take (e.cursor_x - 1)
          ++ (get_current_line e).drop e.cursor_x)).getD e.cursor_y []).length
      rw [getD_set_self _ _ _ _ h2, hcur, length_backspace _ _ hx h3]
      omega
  · split
    · next hy =>
      have hsetlen :
          (e.lines.set (e.cursor_y - 1)
            (e.lines.getD (e.cursor_y - 1) [] ++ get_current_line e)).length
          = e.lines.length := List.length_set ..
      have hylt : e.cursor_y <
          (e.lines.set (e.cursor_y - 1)
            (e.lines.getD (e.cursor_y - 1) [] ++ get_current_line e)).length := by
        rw [hsetlen]; exact h2
      have herase :
          ((e.lines.set (e.cursor_y - 1)
            (e.lines.getD (e.cursor_y - 1) [] ++ get_current_line e)).eraseIdx
            e.cursor_y).length
          = e.lines.length - 1 := by
        rw [length_eraseIdx_of_lt _ _ hylt, hsetlen]
      have hylt2 : e.cursor_y - 1 < e.lines.length := by omega
      refine ⟨?_, ?_, ?_⟩
      · show (e.lines.set (e.cursor_y - 1)
            (e.lines.getD (e.cursor_y - 1) [] ++ get_current_line e)).eraseIdx
            e.cursor_y ≠ []
        apply ne_nil_of_length_pos'
        rw [herase]
        omega
      · show e.cursor_y - 1 < ((e.lines.set (e.cursor_y - 1)
            (e.lines.getD (e.cursor_y - 1) [] ++ get_current_line e)).eraseIdx
            e.cursor_y).length
        rw [herase]
        omega
      · show (e.lines.getD (e.cursor_y - 1) []).length ≤
          (((e.lines.set (e.cursor_y - 1)
            (e.lines.getD (e.cursor_y - 1) [] ++ get_current_line e)).eraseIdx
            e.cursor_y).getD (e.cursor_y - 1) []).length
        rw [getD_eraseIdx_lt _ _ _ _ (by omega),
          getD_set_self _ _ _ _ hylt2]
        simp
    · exact ⟨h1, h2, h3⟩

theorem invariant_insert_newline (e : Editor) (t : Int)
    (h : Invariant e) : Invariant (insert_newline e t) := by
  obtain ⟨h1, h2, h3⟩ := h
  have hsetlen :
      (e.lines.set e.cursor_y ((get_current_line e).take e.cursor_x)).length
      = e.lines.length := List.length_set ..
  have hinslen :
      ((e.lines.set e.cursor_y ((get_current_line e).take e.cursor_x)).insertIdx
        (e.cursor_y + 1) ((get_current_line e).drop e.cursor_x)).length
      = e.lines.length + 1 := by
    rw [List.length_insertIdx _ _ (by rw [hsetlen]; omega), hsetlen]
  refine ⟨?_, ?_, ?_⟩
  · show (e.lines.set e.cursor_y ((get_current_line e).take e.cursor_x)).insertIdx
      (e.cursor_y + 1) ((get_current_line e).drop e.cursor_x) ≠ []
    apply ne_nil_of_length_pos'
    rw [hinslen]; omega
  · show e.cursor_y + 1 <
      ((e.lines.set e.cursor_y ((get_current_line e).take e.cursor_x)).insertIdx
        (e.cursor_y + 1) ((get_current_line e).drop e.cursor_x)).length
    rw [hinslen]; omega
  · exact Nat.zero_le _

theorem invariant_move_vertical (e : Editor) (dy : Int)
    (h : Invariant e) : Invariant (move_cursor_vertical e dy) := by
  obtain ⟨h1, h2, h3⟩ := h
  have hpos : 0 < e.lines.length := length_pos_of_ne_nil' _ h1
  have heq : move_cursor_vertical e dy =
      if (max 0 (min ((e.lines.length : Int) - 1)
          ((e.cursor_y : Int) + dy))).toNat ≠ e.cursor_y then
        { e with
          cursor_y := (max 0 (min ((e.lines.length : Int) - 1)
            ((e.cursor_y : Int) + dy))).toNat
          cursor_x := min e.cursor_x (get_current_line { e with
            cursor_y := (max 0 (min ((e.lines.length : Int) - 1)
              ((e.cursor_y : Int) + dy))).toNat }).length }
      else e := rfl
  rw [heq]
  split
  · next hne =>
    have hylt : (max 0 (min ((e.lines.length : Int) - 1)
        ((e.cursor_y : Int) + dy))).toNat < e.lines.length := by omega
    refine ⟨h1, hylt, ?_⟩
    show min e.cursor_x (get_current_line { e with
        cursor_y := (max 0 (min ((e.lines.length : Int) - 1)
          ((e.cursor_y : Int) + dy))).toNat }).length ≤
      (e.lines.getD ((max 0 (min ((e.lines.length : Int) - 1)
          ((e.cursor_y : Int) + dy))).toNat) []).length
    rw [get_current_line_eq_getD { e with
        cursor_y := (max 0 (min ((e.lines.length : Int) - 1)
          ((e.cursor_y : Int) + dy))).toNat } hylt]
    exact Nat.min_le_right _ _
  · exact ⟨h1, h2, h3⟩

theorem invariant_move_horizontal (e : Editor) (dx : Int)
    (h : Invariant e) : Invariant (move_cursor_horizontal e dx) := by
  obtain ⟨h1, h2, h3⟩ := h
  unfold move_cursor_horizontal
  split
  · refine ⟨h1, h2, ?_⟩
    show (max 0 (min (((get_current_line e).length : Int))
        ((e.cursor_x : Int) + dx))).toNat ≤ (e.lines.getD e.cursor_y []).length
    rw [get_current_line_eq_getD _ h2]
    omega
  · exact ⟨h1, h2, h3⟩

theorem invariant_move_cursor (e : Editor) (dy dx : Int)
    (h : Invariant e) : Invariant (move_cursor e dy dx) := by
  obtain ⟨h1, h2, h3⟩ := h
  unfold move_cursor
  split <;>
    exact invariant_move_horizontal _ dx
      (invariant_move_vertical _ dy ⟨h1, h2, h3⟩)

theorem invariant_applyOp (e : Editor) (op : Op) (h : Invariant e) :
    Invariant (applyOp e op) := by
  cases op with
  | ins c t => exact invariant_insert_char e c t h
  | del t => exact invariant_delete_char e t h
  | newline t => exact invariant_insert_newline e t h
  | move dy dx => exact invariant_move_cursor e dy dx h

/-! ### Claim C1 -/

/-- Claim C1: for every sequence of insert_char, delete_char,
insert_newline and move_cursor operations applied to a buffer that
starts with at least one line and a valid cursor, after every operation
0 ≤ row < len(lines) and 0 ≤ col ≤ len(lines[row]) holds and lines is
never empty.  (Arbitrary prefixes of an operation sequence are
themselves operation sequences, so the invariant holds after every
intermediate operation as well.) -/
theorem cursor_invariant_preserved (e : Editor) (h : Invariant e) :
    ∀ ops : List Op, Invariant (ops.foldl applyOp e) := by
  intro ops
  induction ops generalizing e with
  | nil => exact h
  | cons op rest ih => exact ih (applyOp e op) (invariant_applyOp e op h)

/-- Sample starting state for the C1 witness. -/
def invariantWitState : Editor := mkEditor [['a', 'b'], ['c']] 0 1 [] 0 0

/-- Sample operation sequence for the C1 witness. -/
def invariantWitOps : List Op :=
  [.ins 'x' 1, .newline 2, .del 3, .move (-1) 2, .ins 'y' 4,
    .move 5 (-7), .del 6, .del 7, .del 8]

/-- Witness for C1 at a concrete state and operation sequence. -/
theorem cursor_invariant_preserved_witness :
    Invariant invariantWitState ∧
    Invariant (List.foldl applyOp invariantWitState invariantWitOps) :=
  ⟨by decide,
    cursor_invariant_preserved invariantWitState (by decide) invariantWitOps⟩

/-! ### Claim C2 -/

/-- Concrete state for the C2 counterexample: Active(text = "a", k = 0). -/
def matchCexState : Editor := mkEditor [['h', 'i']] 0 0 ['a'] 0 0

/-- Claim C2 counterexample: with suggestion Active(text = "a", k = 0)
and the typed character equal to text[0], where k + 1 = len(text), the
claim says the state transitions immediately to Empty; the code instead
leaves the suggestion Active with match_pos = 1 (it is collapsed only
at the next observation). -/
theorem match_advance_cex :
    matchCexState.suggestion = ['a'] ∧
    matchCexState.suggestion_match_pos = 0 ∧
    (check_suggestion_match matchCexState 'a').suggestion = ['a'] ∧
    (check_suggestion_match matchCexState 'a').suggestion ≠ [] ∧
    (check_suggestion_match matchCexState 'a').suggestion_match_pos = 1 := by
  decide

/-- Claim C2 amended: while the suggestion is Active(text, k) with
k < len(text), typing text[k] advances the state to Active(text, k+1) —
including when k + 1 = len(text); any other character yields Empty; an
exhausted Active(text, k) with k ≥ len(text) collapses to Empty at the
next observed keystroke, not immediately. -/
theorem match_advance_amended (e : Editor) (c : Char)
    (hact : e.suggestion ≠ []) :
    (e.suggestion_match_pos < e.suggestion.length →
      (e.suggestion.getD e.suggestion_match_pos c = c →
        (check_suggestion_match e c).suggestion = e.suggestion ∧
        (check_suggestion_match e c).suggestion_match_pos
          = e.suggestion_match_pos + 1) ∧
      (e.suggestion.getD e.suggestion_match_pos c ≠ c →
        (check_suggestion_match e c).suggestion = [] ∧
        (check_suggestion_match e c).suggestion_match_pos = 0)) ∧
    (e.suggestion.length ≤ e.suggestion_match_pos →
      (check_suggestion_match e c).suggestion = [] ∧
      (check_suggestion_match e c).suggestion_match_pos = 0) := by
  unfold check_suggestion_match
  constructor
  · intro hk
    constructor
    · intro hmatch
      rw [if_neg hact, if_pos hk, if_pos hmatch]
      exact ⟨rfl, rfl⟩
    · intro hmm
      rw [if_neg hact, if_pos hk, if_neg hmm]
      exact ⟨rfl, rfl⟩
  · intro hge
    rw [if_neg hact, if_neg (Nat.not_lt.mpr hge)]
    exact ⟨rfl, rfl⟩

/-- Concrete Active state for the C2 witness. -/
def matchWitState : Editor := mkEditor [['h']] 0 0 ['a', 'b'] 0 0

/-- Witness for the amended C2 at a concrete matching keystroke. -/
theorem match_advance_amended_witness :
    (check_suggestion_match matchWitState 'a').suggestion
      = matchWitState.suggestion ∧
    (check_suggestion_match matchWitState 'a').suggestion_match_pos
      = matchWitState.suggestion_match_pos + 1 :=
  ((match_advance_amended matchWitState 'a' (by decide)).1
    (by decide)).1 (by decide)

/-! ### Claim C3 -/

/-- The concrete state of claim C3: lines = ["Start"], cursor (0, 5),
suggestion Active(" with more", 0). -/
def acceptExState : Editor :=
  mkEditor ["Start".toList] 0 5 (" with more".toList) 0 0

/-- Claim C3 counterexample: accepting from the C3 state produces
cursor column 15, not 16 ("Start with more" has 15 characters, and the
cursor lands just past its end). -/
theorem accept_correctness_cex :
    (accept_suggestion acceptExState).cursor_x = 15 ∧
    (accept_suggestion acceptExState).cursor_x ≠ 16 := by decide

/-- Claim C3 amended: from lines = ["Start"], cursor (0, 5), suggestion
Active(" with more", 0), accept yields lines = ["Start with more"],
cursor (0, 15), suggestion Empty. -/
theorem accept_correctness_amended :
    (accept_suggestion acceptExState).lines = ["Start with more".toList] ∧
    (accept_suggestion acceptExState).cursor_y = 0 ∧
    (accept_suggestion acceptExState).cursor_x = 15 ∧
    (accept_suggestion acceptExState).suggestion = [] := by decide

/-! ### Claim C10 -/

/-- Claim C10: calling accept while the suggestion is Empty leaves the
buffer lines, the cursor position and the modified flag unchanged (in
fact the whole editor state is unchanged). -/
theorem accept_empty_noop (e : Editor) (h : e.suggestion = []) :
    (accept_suggestion e).lines = e.lines ∧
    (accept_suggestion e).cursor_y = e.cursor_y ∧
    (accept_suggestion e).cursor_x = e.cursor_x ∧
    (accept_suggestion e).modified = e.modified ∧
    accept_suggestion e = e := by
  unfold accept_suggestion
  rw [if_pos h]
  exact ⟨rfl, rfl, rfl, rfl, rfl⟩

/-- Concrete state for the C10 witness. -/
def acceptNoopWitState : Editor := mkEditor [['a', 'b']] 0 1 [] 0 0

/-- Witness for C10 at a concrete Empty-suggestion state. -/
theorem accept_empty_noop_witness :
    (accept_suggestion acceptNoopWitState).lines = acceptNoopWitState.lines ∧
    (accept_suggestion acceptNoopWitState).cursor_y
      = acceptNoopWitState.cursor_y ∧
    (accept_suggestion acceptNoopWitState).cursor_x
      = acceptNoopWitState.cursor_x ∧
    (accept_suggestion acceptNoopWitState).modified
      = acceptNoopWitState.modified ∧
    accept_suggestion acceptNoopWitState = acceptNoopWitState :=
  accept_empty_noop acceptNoopWitState (by decide)

/-! ### Claim C4 -/

theorem request_ai_completion_generation (e : Editor) (available : Bool)
    (completion : Option Line) :
    (request_ai_completion e available completion).1.generation
      = e.generation := by
  unfold request_ai_completion
  split
  · rfl
  · split
    · rfl
    · show (if isBlankStr (get_context_before_cursor e 500) = true
          then (e, false)
          else match completion with
            | some s => if s = [] then (e, true)
              else ({ e with suggestion := s, suggestion_match_pos := 0 },
                true)
            | none => (e, true)).1.generation = e.generation
      (repeat' split) <;> rfl

theorem request_ai_completion_lines (e : Editor) (available : Bool)
    (completion : Option Line) :
    (request_ai_completion e available completion).1.lines = e.lines := by
  unfold request_ai_completion
  split
  · rfl
  · split
    · rfl
    · show (if isBlankStr (get_context_before_cursor e 500) = true
          then (e, false)
          else match completion with
            | some s => if s = [] then (e, true)
              else ({ e with suggestion := s, suggestion_match_pos := 0 },
                true)
            | none => (e, true)).1.lines = e.lines
      (repeat' split) <;> rfl

theorem idle_check_generation (e : Editor) (now : Int) (available : Bool)
    (completion : Option Line) :
    (idle_check e now available completion).1.generation = e.generation := by
  unfold idle_check
  (repeat' split) <;>
    first
      | rfl
      | exact request_ai_completion_generation e available completion

theorem idle_check_lines (e : Editor) (now : Int) (available : Bool)
    (completion : Option Line) :
    (idle_check e now available completion).1.lines = e.lines := by
  unfold idle_check
  (repeat' split) <;>
    first
      | rfl
      | exact request_ai_completion_lines e available completion

/-- Claim C4: in this code the completion fetch is issued and resolved
inside one atomic idle step of handle_input (the call is synchronous),
so whenever the idle step installs a suggestion the buffer generation
at application equals the generation at issue, the buffer lines are
those the fetch saw, and the suggestion state at issue time was Empty.
Hence a result arriving after an edit has advanced the generation
cannot occur, and no stale result ever produces an Active suggestion;
results are only ever applied to an Empty suggestion state. -/
theorem staleness_discard (e : Editor) (now : Int) (available : Bool)
    (completion : Option Line)
    (hchanged : (idle_check e now available completion).1.suggestion
      ≠ e.suggestion) :
    e.suggestion = [] ∧
    (idle_check e now available completion).1.generation = e.generation ∧
    (idle_check e now available completion).1.lines = e.lines := by
  refine ⟨?_, idle_check_generation e now available completion,
    idle_check_lines e now available completion⟩
  by_cases hs : e.suggestion = []
  · exact hs
  · exfalso
    apply hchanged
    have hie : e.suggestion.isEmpty = false := by
      cases hl : e.suggestion with
      | nil => exact absurd hl hs
      | cons a l => rfl
    show (idle_check e now available completion).1.suggestion = e.suggestion
    unfold idle_check
    rw [hie]
    simp

/-- Concrete state for the C4 witness: an idle check that does install
a completion result. -/
def staleWitState : Editor := mkEditor ["hello".toList] 0 5 [] 0 1000

/-- Witness for C4 at a concrete state where a result is applied. -/
theorem staleness_discard_witness :
    staleWitState.suggestion = [] ∧
    (idle_check staleWitState 1201 true (some ['h', 'i'])).1.generation
      = staleWitState.generation ∧
    (idle_check staleWitState 1201 true (some ['h', 'i'])).1.lines
      = staleWitState.lines :=
  staleness_discard staleWitState 1201 true (some ['h', 'i']) (by decide)

/-! ### Claim C5 -/

/-- Concrete state for the C5 counterexample: last edit at
t = 1000 ms, pause_delay = 200 ms, every firing condition satisfied. -/
def debounceCexState : Editor := mkEditor ["hello".toList] 0 5 [] 0 1000

/-- Claim C5 counterexample: with the last edit at t = 1000 ms and
pause_delay = 200 ms, all the firing conditions of the claim hold, yet
at the idle check observed exactly at t + 200 ms no fetch fires and the
state is unchanged: the code requires the idle gap to exceed the delay
strictly, so the first firing check is strictly after t + 200 ms. -/
theorem debounce_cex :
    debounceCexState.ai_enabled = true ∧
    debounceCexState.suggestion = [] ∧
    debounceCexState.requesting_completion = false ∧
    debounceCexState.last_input_time = 1000 ∧
    0 < debounceCexState.last_input_time ∧
    debounceCexState.pause_delay_ms = 200 ∧
    isBlankStr (get_context_before_cursor debounceCexState 500) = false ∧
    (idle_check debounceCexState (1000 + 200) true (some ['h', 'i'])).2
      = false ∧
    (idle_check debounceCexState (1000 + 200) true (some ['h', 'i'])).1
      = debounceCexState := by decide

/-- Claim C5 amended: with pause_delay = 200 ms and the last edit at
time t > 0, no fetch fires at any idle check at or before t + 200 ms; a
fetch fires at every (hence at the first) idle check observed strictly
after t + 200 ms, given AI enabled and available, no active suggestion,
no request in flight and a non-blank context; no fetch fires while a
suggestion is active; and a new edit at time t2 resets the timer, so no
fetch fires at or before t2 + 200 ms. -/
theorem debounce_amended (e : Editor) (t : Int) (available : Bool)
    (completion : Option Line)
    (hlast : e.last_input_time = t) (hdelay : e.pause_delay_ms = 200) :
    (∀ now, now ≤ t + 200 →
      (idle_check e now available completion).2 = false) ∧
    (∀ now, t + 200 < now → 0 < t → e.ai_enabled = true →
      e.suggestion = [] → e.requesting_completion = false →
      available = true →
      isBlankStr (get_context_before_cursor e 500) = false →
      (idle_check e now available completion).2 = true) ∧
    (∀ now, e.suggestion ≠ [] →
      (idle_check e now available completion).2 = false) ∧
    (∀ (c : Char) (t2 now2 : Int), now2 ≤ t2 + 200 →
      (idle_check (insert_char e c t2) now2 available completion).2
        = false) := by
  refine ⟨?_, ?_, ?_, ?_⟩
  · intro now hnow
    unfold idle_check
    split
    · rw [if_neg (show ¬(now - e.last_input_time > e.pause_delay_ms) by
        rw [hlast, hdelay]; omega)]
    · rfl
  · intro now hnow ht hai hsug hreq hav hctx
    unfold idle_check
    rw [if_pos (show (e.ai_enabled && e.suggestion.isEmpty
        && !e.requesting_completion) = true by rw [hai, hsug, hreq]; rfl)]
    rw [if_pos (show now - e.last_input_time > e.pause_delay_ms by
      rw [hlast, hdelay]; omega)]
    rw [if_pos (show e.last_input_time > 0 by rw [hlast]; omega)]
    unfold request_ai_completion
    rw [if_neg (show ¬((!e.ai_enabled || !available) = true) by
      rw [hai, hav]; simp)]
    rw [if_neg (show ¬(e.requesting_completion = true) by rw [hreq]; simp)]
    rw [if_neg (show ¬(isBlankStr (get_context_before_cursor e 500) = true) by
      rw [hctx]; simp)]
    (repeat' split) <;> rfl
  · intro now hs
    have hie : e.suggestion.isEmpty = false := by
      cases hl : e.suggestion with
      | nil => exact absurd hl hs
      | cons a l => rfl
    unfold idle_check
    rw [hie]
    simp
  · intro c t2 now2 h2
    have hl2 : (insert_char e c t2).last_input_time = t2 :=
      (insert_char_fields e c t2).2.2.2.1
    have hp2 : (insert_char e c t2).pause_delay_ms = e.pause_delay_ms :=
      (insert_char_fields e c t2).2.2.2.2
    unfold idle_check
    split
    · rw [if_neg (show ¬(now2 - (insert_char e c t2).last_input_time
        > (insert_char e c t2).pause_delay_ms) by
        rw [hl2, hp2, hdelay]; omega)]
    · rfl

/-- Concrete state for the C5 witness. -/
def debounceWitState : Editor := mkEditor ["hello".toList] 0 5 [] 0 1000

/-- Witness for the amended C5: the fetch does fire at a concrete idle
check strictly after t + 200 ms. -/
theorem debounce_amended_witness :
    (idle_check debounceWitState 1300 true (some ['h', 'i'])).2 = true :=
  (debounce_amended debounceWitState 1000 true (some ['h', 'i'])
    (by decide) (by decide)).2.1 1300 (by decide) (by decide) (by decide)
    (by decide) (by decide) (by decide) (by decide)

/-! ### Claim C6 -/

theorem pySplit_no_sep (sep : Char) : ∀ (l : Line), sep ∉ l →
    pySplit sep l = [l]
  | [], _ => rfl
  | c :: rest, h => by
    have hc : ¬(c = sep) := fun hh =>
      h (by rw [hh]; exact List.mem_cons_self sep rest)
    have hr : sep ∉ rest := fun hh => h (List.mem_cons_of_mem c hh)
    simp only [pySplit]
    rw [if_neg hc, pySplit_no_sep sep rest hr]

theorem pySplit_append (sep : Char) : ∀ (l t : Line), sep ∉ l →
    pySplit sep (l ++ sep :: t) = l :: pySplit sep t
  | [], t, _ => by
    simp [pySplit]
  | c :: rest, t, h => by
    have hc : ¬(c = sep) := fun hh =>
      h (by rw [hh]; exact List.mem_cons_self sep rest)
    have hr : sep ∉ rest := fun hh => h (List.mem_cons_of_mem c hh)
    show pySplit sep (c :: (rest ++ sep :: t)) = (c :: rest) :: pySplit sep t
    simp only [pySplit]
    rw [if_neg hc, pySplit_append sep rest t hr]

theorem pySplit_pyJoin : ∀ (ls : List Line), ls ≠ [] →
    (∀ l ∈ ls, '\n' ∉ l) → pySplit '\n' (pyJoin '\n' ls) = ls
  | [], h1, _ => absurd rfl h1
  | [l], _, h2 => by
    show pySplit '\n' l = [l]
    exact pySplit_no_sep '\n' l (h2 l (List.mem_cons_self l []))
  | l :: l2 :: rest, _, h2 => by
    show pySplit '\n' (l ++ '\n' :: pyJoin '\n' (l2 :: rest))
      = l :: l2 :: rest
    rw [pySplit_append '\n' l (pyJoin '\n' (l2 :: rest))
      (h2 l (List.mem_cons_self l (l2 :: rest)))]
    rw [pySplit_pyJoin (l2 :: rest) (List.cons_ne_nil l2 rest)
      (fun x hx => h2 x (List.mem_cons_of_mem l hx))]

/-- Claim C6: for every buffer whose (non-empty) line list contains no
newline character inside a line, loading the serialized content
reproduces exactly the same lines; loading empty content yields the
single-empty-line buffer, never zero lines. -/
theorem load_save_roundtrip (e : Editor) (h1 : e.lines ≠ [])
    (h2 : ∀ l ∈ e.lines, '\n' ∉ l) :
    load_content (serialize e) = e.lines ∧ load_content [] = [[]] := by
  constructor
  · show (if serialize e = [] then [[]] else pySplit '\n' (serialize e))
      = e.lines
    split
    · next hemp =>
      have hsj := pySplit_pyJoin e.lines h1 h2
      rw [show pyJoin '\n' e.lines = serialize e from rfl, hemp] at hsj
      exact hsj
    · exact pySplit_pyJoin e.lines h1 h2
  · rfl

/-- Concrete state for the C6 witness, with an empty line and spaces. -/
def roundWitState : Editor :=
  mkEditor ["ab".toList, [], "c d".toList] 0 0 [] 0 0

/-- Witness for C6 at a concrete three-line buffer. -/
theorem load_save_roundtrip_witness :
    load_content (serialize roundWitState) = roundWitState.lines ∧
    load_content [] = [[]] :=
  load_save_roundtrip roundWitState (by decide) (by decide)

/-! ### Claim C7 -/

/-- Concrete state for the C7 counterexample: cursor at the very start
of the buffer, Active suggestion "x". -/
def deleteCexState : Editor := mkEditor [['a']] 0 0 ['x'] 0 0

/-- Claim C7 counterexample: a backspace with the cursor at the very
start of the buffer is a complete no-op; contrary to the claim, the
prior Active suggestion is retained, not cleared. -/
theorem delete_invalidates_cex :
    (delete_char deleteCexState 5).suggestion = ['x'] ∧
    (delete_char deleteCexState 5).suggestion ≠ [] ∧
    delete_char deleteCexState 5 = deleteCexState := by decide

/-- Claim C7 amended: after a backspace that is not at the very start
of the buffer (so the deletion modifies the text), the suggestion state
is Empty, for every prior buffer, cursor and suggestion state; with the
cursor at the buffer start delete_char is a complete no-op that retains
the prior suggestion. -/
theorem delete_invalidates_amended (e : Editor) (t : Int) :
    (0 < e.cursor_x ∨ 0 < e.cursor_y →
      (delete_char e t).suggestion = []) ∧
    (e.cursor_x = 0 → e.cursor_y = 0 → delete_char e t = e) := by
  unfold delete_char
  constructor
  · intro hc
    split
    · rfl
    · split
      · rfl
      · next hx hy => rcases hc with h | h <;> omega
  · intro hx hy
    rw [if_neg (show ¬(e.cursor_x > 0) by omega),
      if_neg (show ¬(e.cursor_y > 0) by omega)]

/-- Concrete state for the C7 witness. -/
def deleteWitState : Editor := mkEditor [['a', 'b']] 0 1 ['q'] 0 0

/-- Witness for the amended C7 at a concrete mid-line backspace. -/
theorem delete_invalidates_amended_witness :
    (delete_char deleteWitState 9).suggestion = [] :=
  (delete_invalidates_amended deleteWitState 9).1 (Or.inl (by decide))

/-! ### Claim C8 -/

/-- Claim C8: a load that fails with an IOError leaves the buffer
lines, cursor, filename and modified flag unchanged, and a save that
fails with an IOError leaves the buffer lines unchanged with modified
still true. -/
theorem io_failure_preserves_state (e : Editor) (fname : Line)
    (hmod : e.modified = true) :
    (load_file e fname none).lines = e.lines ∧
    (load_file e fname none).cursor_y = e.cursor_y ∧
    (load_file e fname none).cursor_x = e.cursor_x ∧
    (load_file e fname none).filename = e.filename ∧
    (load_file e fname none).modified = e.modified ∧
    (∀ fnameArg : Option Line,
      (save_file e fnameArg false).lines = e.lines ∧
      (save_file e fnameArg false).modified = true) := by
  refine ⟨rfl, rfl, rfl, rfl, rfl, ?_⟩
  intro fnameArg
  unfold save_file
  cases fnameArg with
  | none =>
    cases hf : e.filename with
    | none => simp [hf, hmod]
    | some f => simp [hf, hmod]
  | some f => exact ⟨rfl, hmod⟩

/-- Concrete modified state for the C8 witness. -/
def ioWitState : Editor := { mkEditor [['a']] 0 1 [] 0 0 with modified := true }

/-- Witness for C8: failed load and failed save at a concrete state. -/
theorem io_failure_preserves_state_witness :
    (load_file ioWitState ['f'] none).lines = ioWitState.lines ∧
    (load_file ioWitState ['f'] none).modified = ioWitState.modified ∧
    (save_file ioWitState none false).lines = ioWitState.lines ∧
    (save_file ioWitState none false).modified = true :=
  ⟨(io_failure_preserves_state ioWitState ['f'] (by decide)).1,
    (io_failure_preserves_state ioWitState ['f'] (by decide)).2.2.2.2.1,
    ((io_failure_preserves_state ioWitState ['f'] (by decide)).2.2.2.2.2
      none).1,
    ((io_failure_preserves_state ioWitState ['f'] (by decide)).2.2.2.2.2
      none).2⟩

/-! ### Claim C9 -/

/-- The failing input of claim C9: a modified buffer with no filename
set (the setup of the repository's own tests in test_manual.py and
verify_fixes.py). -/
def saveNoNameState : Editor :=
  { mkEditor ["Test content".toList] 0 0 [] 0 0 with modified := true }

/-- Claim C9 evaluated at the failing input: save_file with no filename
set does not fall back to untitled.txt — it sets the No-filename status
and returns without saving anything; the filename stays unset and the
modified flag stays true, whatever the would-be write outcome. -/
theorem save_no_filename_refuses :
    saveNoNameState.filename = none ∧
    save_file saveNoNameState none true
      = { saveNoNameState with status := .noFilename } ∧
    (save_file saveNoNameState none true).filename = none ∧
    (save_file saveNoNameState none true).modified = true ∧
    save_file saveNoNameState none false
      = { saveNoNameState with status := .noFilename } := by decide

end TextAutocomplete
